import Mathlib

/-!
Shallow embedding of the retrieval-augmented chat application in
`code/Streamlit/chatUIStreamlit.py`.

Modelling conventions:
* Python dictionaries of the shape `{"role": r, "content": c}` become the
  structure `Message`.
* The external services (the ollama embedding endpoint reached through
  `ollama.embeddings`, and the chat-completion endpoint reached through
  `client.chat.completions.create`) are modelled as explicit function
  parameters collected in `Services`; a fallible call returns `Except`.
  `torch.cosine_similarity` is an external numeric kernel and is modelled as
  an explicit score function `cosSim`; `torch.topk` is modelled by
  `topkIndices` (indices of the k largest scores, sorted by value descending,
  ties broken by lower index first, matching stable CPU behaviour).
* Python name resolution matters here: `chat` reads the free global names
  `ollama_model`, `vault_embeddings` and `vault_content`, none of which is
  bound at module scope of the file (module scope binds the imports plus
  `add_to_vector_store`, `get_context`, `rewrite_query`, `chat`, `client`,
  `embeddings`, `vector_store`, `retriever` and the Streamlit UI locals).
  The structure `Env` records an optional value for each of the three names;
  `none` means unbound, and reading an unbound name raises
  `PyError.nameError`, aborting evaluation exactly where Python would raise
  a `NameError`.  `moduleEnv` is the environment realised by the module.
* In-place mutation of the caller's `conversation_history` list is modelled
  by threading the list state; an escaping exception carries the list state
  at the raise point, which is what the caller observes afterwards.
* `json.dumps` followed by `json.loads` of the query wrapper objects in
  `rewrite_query`/`chat` round-trips, so the JSON envelope is modelled as
  the identity and `rewrite_query` passes the query text directly.
-/

namespace RagDemo

/-- Role field of a chat message dictionary. -/
inductive Role where
  | user
  | assistant
  | system
deriving DecidableEq

/-- A chat message: a Python dict with a role and a content string. -/
structure Message where
  role : Role
  content : String
deriving DecidableEq

/-- Errors a chat turn can raise: a Python NameError on an unbound global,
an embedding-service failure, or a chat-completion failure. -/
inductive PyError where
  | nameError (name : String)
  | embeddingError (msg : String)
  | completionError (msg : String)
deriving DecidableEq

/-- Python `str.strip()`: drop leading and trailing whitespace.  Defined
directly on the character list so that proofs can evaluate it. -/
def pyStrip (s : String) : String :=
  ⟨((s.data.dropWhile Char.isWhitespace).reverse.dropWhile Char.isWhitespace).reverse⟩

/-- torch `Tensor.nelement` for a 2-D tensor given as a list of rows: the
total number of scalar entries.  Line 81 of the source uses
`vault_embeddings.nelement() == 0` as its emptiness check. -/
def nelement (t : List (List ℚ)) : Nat := (t.map List.length).sum

/-- Score of index `i` in a score list (out-of-range reads default to 0;
the code only uses in-range indices). -/
def scoreAt (scores : List ℚ) (i : Nat) : ℚ := scores.getD i 0

/-- Ranking relation used to model `torch.topk`: index `i` comes before
index `j` when its score is strictly larger, or the scores are equal and
`i` is the lower (earlier) index. -/
def rankRel (scores : List ℚ) (i j : Nat) : Prop :=
  scoreAt scores j < scoreAt scores i ∨ (scoreAt scores i = scoreAt scores j ∧ i ≤ j)

instance rankRelDecidable (scores : List ℚ) : DecidableRel (rankRel scores) := fun i j =>
  inferInstanceAs (Decidable (scoreAt scores j < scoreAt scores i ∨
    (scoreAt scores i = scoreAt scores j ∧ i ≤ j)))

instance rankRelTotal (scores : List ℚ) : IsTotal Nat (rankRel scores) :=
  ⟨fun i j => by
    rcases lt_trichotomy (scoreAt scores i) (scoreAt scores j) with h | h | h
    · rcases Nat.le_total j i with hji | hji
      · exact Or.inr (Or.inl h)
      · exact Or.inr (Or.inl h)
    · rcases Nat.le_total i j with hij | hij
      · exact Or.inl (Or.inr ⟨h, hij⟩)
      · exact Or.inr (Or.inr ⟨h.symm, hij⟩)
    · exact Or.inl (Or.inl h)⟩

instance rankRelTrans (scores : List ℚ) : IsTrans Nat (rankRel scores) :=
  ⟨fun i j k hij hjk => by
    rcases hij with h1 | ⟨e1, l1⟩ <;> rcases hjk with h2 | ⟨e2, l2⟩
    · exact Or.inl (h2.trans h1)
    · exact Or.inl (e2 ▸ h1)
    · exact Or.inl (lt_of_lt_of_eq h2 e1.symm)
    · exact Or.inr ⟨e1.trans e2, l1.trans l2⟩⟩

/-- All indices of the score list, sorted by descending score with ties
broken by the lower index first. -/
def rankedIndices (scores : List ℚ) : List Nat :=
  List.insertionSort (rankRel scores) (List.range scores.length)

/-- Model of `torch.topk(cos_scores, k)[1].tolist()`: the indices of the
`k` largest scores, best first. -/
def topkIndices (scores : List ℚ) (k : Nat) : List Nat :=
  (rankedIndices scores).take k

/-- Model of `get_context` (source lines 80-98).  `embed` models the
`ollama.embeddings` call (fallible), `cosSim` models
`torch.cosine_similarity` row-wise against the vault tensor. -/
def get_context (embed : String → Except String (List ℚ))
    (cosSim : List ℚ → List ℚ → ℚ) (rewritten_input : String)
    (vault_embeddings : List (List ℚ)) (vault_content : List String)
    (top_k : Nat) : Except String (List String) :=
  if nelement vault_embeddings = 0 then Except.ok []
  else
    match embed rewritten_input with
    | Except.error e => Except.error e
    | Except.ok input_embedding =>
        let cos_scores := vault_embeddings.map (cosSim input_embedding)
        let k := min top_k cos_scores.length
        Except.ok ((topkIndices cos_scores k).map (fun idx => pyStrip (vault_content.getD idx "")))

/-- External service calls made by the pipeline.  `embed` is the embedding
endpoint; `rewriteService model prompt` is the completion call inside
`rewrite_query` (max_tokens, n and temperature are request parameters of
the external call and are absorbed into the function); `chatService model
messages` is the main completion call and may fail. -/
structure Services where
  embed : String → Except String (List ℚ)
  cosSim : List ℚ → List ℚ → ℚ
  rewriteService : String → String → String
  chatService : String → List Message → Except String String

/-- Values (or absence) of the three free global names `chat` reads.  In
the module as written none of the three is bound. -/
structure Env where
  ollama_model : Option String
  vault_embeddings : Option (List (List ℚ))
  vault_content : Option (List String)

/-- The environment realised by module scope of the source file:
`ollama_model`, `vault_embeddings` and `vault_content` are all unbound
(`ollama_model` occurs only as a parameter local to `rewrite_query`). -/
def moduleEnv : Env := ⟨none, none, none⟩

/-- The fixed system instruction of `chat` (source line 133). -/
def system_message : String :=
  "You are a helpful assistant that is an expert at extracting the most useful information from a given text. Also bring in extra relevant information to the user query from outside the given context."

/-- Rendering of a role as the string stored in the Python dict. -/
def roleString : Role → String
  | Role.user => "user"
  | Role.assistant => "assistant"
  | Role.system => "system"

/-- The instructional prompt template of `rewrite_query` (source lines
103-120), with the conversation context (last two turns) and the original
query spliced in where the f-string placeholders sit. -/
def rewritePrompt (user_input : String) (conversation_history : List Message) : String :=
  let context := String.intercalate "\n"
    ((conversation_history.drop (conversation_history.length - 2)).map
      (fun msg => roleString msg.role ++ ": " ++ msg.content))
  "Rewrite the following query by incorporating relevant context from the conversation history.\nThe rewritten query should:\n\n- Preserve the core intent and meaning of the original query\n- Expand and clarify the query to make it more specific and informative for retrieving relevant context\n- Avoid introducing new topics or queries that deviate from the original query\n- DONT EVER ANSWER the Original query, but instead focus on rephrasing and expanding it into a new query\n- Return the output as plain text, without any additional formatting\n\nReturn ONLY the rewritten query text, without any additional formatting or explanations.\n\nConversation History:\n"
    ++ context ++ "\n\nOriginal query: [" ++ user_input ++ "]\n\nRewritten query:\n"

/-- Model of `rewrite_query` (source lines 100-129).  The JSON envelope
(`json.loads` of the input, `json.dumps` of the output) round-trips with
the consumer in `chat` and is modelled as the identity, so the function
maps the query text to the rewritten query text. -/
def rewrite_query (service : String → String → String) (ollama_model : String)
    (user_input : String) (conversation_history : List Message) : String :=
  pyStrip (service ollama_model (rewritePrompt user_input conversation_history))

/-- Model of lines 148-172 of `chat`: the part of the body that runs after
the rewritten query has been computed.  The result carries the reply
together with the caller's `conversation_history` list after the call; an
error carries the list state at the raise point (the list is mutated in
place in Python, so the caller observes that state after an exception).
Reads of the free global names are checked against `env` in source order:
`vault_embeddings` and `vault_content` at line 149 and `ollama_model` at
line 165.  Note that line 149 calls `get_context` without a `top_k`
argument, so the default `3` is used there, and the `model` and `top_k`
parameters of `chat` are never read. -/
def chatAfterRewrite (sv : Services) (env : Env) (user_input rewritten_query : String)
    (conversation_history : List Message) :
    Except (PyError × List Message) (String × List Message) :=
  let history1 := conversation_history ++ [⟨Role.user, user_input⟩]
  match env.vault_embeddings with
  | none => Except.error (PyError.nameError "vault_embeddings", history1)
  | some ve =>
    match env.vault_content with
    | none => Except.error (PyError.nameError "vault_content", history1)
    | some vc =>
      match get_context sv.embed sv.cosSim rewritten_query ve vc 3 with
      | Except.error e => Except.error (PyError.embeddingError e, history1)
      | Except.ok relevant_context =>
        let user_input_with_context :=
          if relevant_context.isEmpty then user_input
          else user_input ++ "\n\nRelevant Context:\n"
            ++ String.intercalate "\n" relevant_context
        let history2 := conversation_history ++ [⟨Role.user, user_input_with_context⟩]
        let messages := ⟨Role.system, system_message⟩ :: history2
        match env.ollama_model with
        | none => Except.error (PyError.nameError "ollama_model", history2)
        | some om2 =>
          match sv.chatService om2 messages with
          | Except.error e => Except.error (PyError.completionError e, history2)
          | Except.ok reply => Except.ok (reply, history2 ++ [⟨Role.assistant, reply⟩])

/-- Model of lines 135-146 of `chat`, dispatching on the history length and
continuing with `chatAfterRewrite`. -/
def chat (sv : Services) (env : Env) (user_input : String) (model : String)
    (top_k : Nat) (conversation_history : List Message) :
    Except (PyError × List Message) (String × List Message) :=
  let history1 := conversation_history ++ [⟨Role.user, user_input⟩]
  if 1 < history1.length then
    match env.ollama_model with
    | none => Except.error (PyError.nameError "ollama_model", history1)
    | some om =>
        chatAfterRewrite sv env user_input
          (rewrite_query sv.rewriteService om user_input history1) conversation_history
  else chatAfterRewrite sv env user_input user_input conversation_history

/-- One complete UI turn (source lines 248-256): the script calls `chat`
on `st.session_state["messages"]` (the same list object `chat` mutates)
and, after a successful return, appends the raw user turn and the
assistant reply to that list again. -/
def chatTurn (sv : Services) (env : Env) (user_input : String) (model : String)
    (top_k : Nat) (messages : List Message) :
    Except (PyError × List Message) (String × List Message) :=
  match chat sv env user_input model top_k messages with
  | Except.error e => Except.error e
  | Except.ok (response, hist) =>
      Except.ok (response, hist ++ [⟨Role.user, user_input⟩, ⟨Role.assistant, response⟩])

/-- An uploaded file as `add_to_vector_store` sees it: name, declared
content type, and the bytes returned by `getvalue()`. -/
structure UploadedFile where
  name : String
  type : String
  value : String
deriving DecidableEq

/-- The four loader constructors selected at source lines 32-39. -/
inductive LoaderKind where
  | pdf
  | json
  | markdown
  | text
deriving DecidableEq

/-- Loader selection by declared content type, with plain text as the
default fallback (source lines 32-39). -/
def pickLoader (t : String) : LoaderKind :=
  if t = "application/pdf" then LoaderKind.pdf
  else if t = "application/json" then LoaderKind.json
  else if t = "text/markdown" then LoaderKind.markdown
  else LoaderKind.text

/-- A langchain Document: page content plus the source metadata entry. -/
structure Document where
  page_content : String
  source : String
deriving DecidableEq

/-- Observable state of ingestion: the temporary files currently on disk
and the (id, chunk) records held by the vector store. -/
structure IngestState where
  tmpFiles : List String
  store : List (String × Document)
deriving DecidableEq

/-- Model of `add_to_vector_store` (source lines 24-70).  `load` models
the selected langchain loader reading the temporary file (fallible: a
parse error raises), `split` models
`RecursiveCharacterTextSplitter.split_documents`, `uuids` supplies the
`uuid4()` draws, and `tmpName` is the fresh path chosen by
`tempfile.NamedTemporaryFile(delete=False)`.  The temporary file is
created before loading; `os.unlink` runs only at line 70, after loading,
chunking and uploading all succeed — an escaping loader exception carries
the state at the raise point, with the temporary file still present. -/
def add_to_vector_store
    (load : LoaderKind → String → Except String (List Document))
    (split : List Document → List Document) (uuids : List String)
    (tmpName : String) (file : Option UploadedFile) (st0 : IngestState) :
    Except (String × IngestState) IngestState :=
  match file with
  | none => Except.ok st0
  | some f =>
      let st1 : IngestState := ⟨st0.tmpFiles ++ [tmpName], st0.store⟩
      match load (pickLoader f.type) f.value with
      | Except.error e => Except.error (e, st1)
      | Except.ok data =>
          let data := data.map (fun d => ⟨d.page_content, f.name⟩)
          let chunked_data := split data
          let ids := (uuids.take chunked_data.length).map (fun u => f.name ++ u)
          let st2 : IngestState := ⟨st1.tmpFiles, st1.store ++ ids.zip chunked_data⟩
          Except.ok ⟨st2.tmpFiles.erase tmpName, st2.store⟩

/-- Concrete score function used in witnesses: the first coordinate of the
stored row (the modelled similarity kernel is an arbitrary fixed function,
so witnesses may pick one whose values are literals). -/
def firstCoord (u v : List ℚ) : ℚ := v.headD 0

/-- Concrete services whose calls all succeed. -/
def svOk : Services :=
  ⟨fun _ => Except.ok [1], firstCoord, fun _ _ => "rewritten", fun _ _ => Except.ok "reply"⟩

/-- Concrete services whose embedding call always fails. -/
def svEmbedFail : Services :=
  ⟨fun _ => Except.error "down", firstCoord, fun _ _ => "rewritten", fun _ _ => Except.ok "reply"⟩

/-- Concrete services whose main chat-completion call always fails. -/
def svChatFail : Services :=
  ⟨fun _ => Except.ok [1], firstCoord, fun _ _ => "rewritten", fun _ _ => Except.error "boom"⟩

/-- Bound environment with an empty vault. -/
def envEmptyVault : Env := ⟨some "gemma2:2b", some [], some []⟩

/-- Bound environment with a one-chunk vault. -/
def envOneChunk : Env := ⟨some "gemma2:2b", some [[1]], some ["The sky is blue"]⟩

/-- Bound environment with a four-chunk vault whose scores against the
query embedding `[1]` are strictly decreasing. -/
def envFourChunks : Env := ⟨some "gemma2:2b", some [[4], [3], [2], [1]], some ["c0", "c1", "c2", "c3"]⟩

/-- Concrete loader that always fails with a parse error. -/
def loadFail : LoaderKind → String → Except String (List Document) :=
  fun _ _ => Except.error "parse error"

/-- Concrete loader that produces one document from the bytes. -/
def loadOk : LoaderKind → String → Except String (List Document) :=
  fun _ bytes => Except.ok [⟨bytes, ""⟩]

/-- Concrete splitter that keeps the documents as they are. -/
def splitId : List Document → List Document := fun d => d

/-- Concrete uploaded plain-text file. -/
def fileTxt : UploadedFile := ⟨"notes.txt", "text/plain", "hello"⟩

/-- Concrete embedding service that answers every query with `[1]`. -/
def embedConst : String → Except String (List ℚ) := fun _ => Except.ok [1]

/-- Concrete embedding service that agrees with `embedConst` on the query
`q` but differs everywhere else. -/
def embedIfQ : String → Except String (List ℚ) :=
  fun s => if s = "q" then Except.ok [1] else Except.error "other"

/-- Helper: appending two singletons one after the other. -/
theorem append_pair (h : List Message) (a b : Message) :
    (h ++ [a]) ++ [b] = h ++ [a, b] := by
  simp

/-- Helper: a successful run of `chat` appends exactly the (possibly
augmented) user turn and the assistant turn to the incoming history. -/
theorem chatAfterRewrite_ok_shape (sv : Services) (env : Env) (u rq : String)
    (h : List Message) (resp : String) (hist : List Message)
    (hok : chatAfterRewrite sv env u rq h = Except.ok (resp, hist)) :
    ∃ aug, hist = h ++ [⟨Role.user, aug⟩, ⟨Role.assistant, resp⟩] := by
  simp only [chatAfterRewrite] at hok
  repeat' split at hok
  all_goals
    first
      | exact Except.noConfusion hok
      | (injection hok with hpair
         rw [Prod.mk.injEq] at hpair
         obtain ⟨h1, h2⟩ := hpair
         subst h1
         subst h2
         exact ⟨_, append_pair h _ _⟩)

/-- Helper: the same shape fact lifted to `chat`. -/
theorem chat_ok_shape (sv : Services) (env : Env) (u m : String) (k : Nat)
    (h : List Message) (resp : String) (hist : List Message)
    (hok : chat sv env u m k h = Except.ok (resp, hist)) :
    ∃ aug, hist = h ++ [⟨Role.user, aug⟩, ⟨Role.assistant, resp⟩] := by
  simp only [chat] at hok
  by_cases hc : 1 < (h ++ [(⟨Role.user, u⟩ : Message)]).length
  · rw [if_pos hc] at hok
    rcases henv : env.ollama_model with _ | om
    · rw [henv] at hok
      exact Except.noConfusion hok
    · rw [henv] at hok
      exact chatAfterRewrite_ok_shape sv env u _ h resp hist hok
  · rw [if_neg hc] at hok
    exact chatAfterRewrite_ok_shape sv env u u h resp hist hok

/-- Claim C1, amended: with the environment realised by the module, every
invocation of `chat` fails with an unbound-name error before any completion
call is made.  On a first turn (empty history) the failing name is
`vault_embeddings`, read at the `get_context` call of line 149; on every
later turn it is `ollama_model`, read at the `rewrite_query` call of line
142.  The right-hand side does not mention the `model` argument, so the
`model` parameter of `chat` is never read. -/
theorem chat_module_env_unbound (sv : Services) (u m : String) (k : Nat)
    (h : List Message) :
    chat sv moduleEnv u m k h =
      Except.error
        (PyError.nameError (if h.isEmpty then "vault_embeddings" else "ollama_model"),
         h ++ [⟨Role.user, u⟩]) := by
  cases h with
  | nil => rfl
  | cons a t =>
      have hlen : 1 < ((a :: t) ++ [(⟨Role.user, u⟩ : Message)]).length := by
        simp
      simp only [chat]
      rw [if_pos hlen]
      rfl

/-- Claim C1, counterexample to the claim as stated: on the first chat turn
the unbound name reached first is `vault_embeddings`, not `ollama_model`,
so evaluation of that turn never reaches a read of `ollama_model`. -/
theorem chat_first_turn_reads_vault_embeddings :
    chat svOk moduleEnv "hi" "gemma2:2b" 5 [] =
      Except.error (PyError.nameError "vault_embeddings", [⟨Role.user, "hi"⟩]) ∧
    "vault_embeddings" ≠ "ollama_model" := ⟨rfl, by decide⟩

/-- Claim C2: the `top_k` parameter of `chat` is never forwarded to
`get_context` (line 149 omits it, so the default 3 is used); the result of
`chat` is invariant in `top_k`, and a concrete turn requesting the top 5
chunks of a four-chunk store still gets only 3 context chunks. -/
theorem chat_ignores_top_k :
    (∀ (sv : Services) (env : Env) (u m : String) (k₁ k₂ : Nat) (h : List Message),
        chat sv env u m k₁ h = chat sv env u m k₂ h) ∧
    chat svOk envFourChunks "q" "gemma2:2b" 5 [] =
      Except.ok ("reply",
        [⟨Role.user, "q\n\nRelevant Context:\nc0\nc1\nc2"⟩, ⟨Role.assistant, "reply"⟩]) :=
  ⟨fun _ _ _ _ _ _ _ => rfl, rfl⟩

/-- Claim C3, amended: a completed turn appends four entries to the
conversation history, not two: `chat` itself appends the context-augmented
user turn and the assistant turn, and the UI code (lines 255-256) then
appends the raw user turn and the assistant reply to the same list again,
so each turn is recorded twice. -/
theorem chatTurn_appends_four (sv : Services) (env : Env) (u m : String) (k : Nat)
    (h : List Message) (resp : String) (histFinal : List Message)
    (hok : chatTurn sv env u m k h = Except.ok (resp, histFinal)) :
    ∃ aug, histFinal = h ++ [⟨Role.user, aug⟩, ⟨Role.assistant, resp⟩,
      ⟨Role.user, u⟩, ⟨Role.assistant, resp⟩] := by
  unfold chatTurn at hok
  split at hok
  · exact Except.noConfusion hok
  · rename_i response hist heq
    injection hok with hpair
    rw [Prod.mk.injEq] at hpair
    obtain ⟨h1, h2⟩ := hpair
    subst h1
    subst h2
    obtain ⟨aug, haug⟩ := chat_ok_shape sv env u m k h response hist heq
    refine ⟨aug, ?_⟩
    rw [haug]
    simp

/-- Claim C3, witness for the amended theorem at a concrete completed
turn. -/
theorem chatTurn_appends_four_witness :
    ∃ aug, ([⟨Role.user, "hi"⟩, ⟨Role.assistant, "reply"⟩,
        ⟨Role.user, "hi"⟩, ⟨Role.assistant, "reply"⟩] : List Message) =
      ([] : List Message) ++ [⟨Role.user, aug⟩, ⟨Role.assistant, "reply"⟩,
        ⟨Role.user, "hi"⟩, ⟨Role.assistant, "reply"⟩] :=
  chatTurn_appends_four svOk envEmptyVault "hi" "gemma2:2b" 3 [] "reply" _ rfl

/-- Claim C3, counterexample to the claim as stated: after one completed
turn starting from the empty history the history holds four entries, not
two, and the turn (user input and assistant reply) appears twice. -/
theorem chatTurn_records_turn_twice :
    chatTurn svOk envEmptyVault "hi" "gemma2:2b" 3 [] =
      Except.ok ("reply", [⟨Role.user, "hi"⟩, ⟨Role.assistant, "reply"⟩,
        ⟨Role.user, "hi"⟩, ⟨Role.assistant, "reply"⟩]) ∧
    ([⟨Role.user, "hi"⟩, ⟨Role.assistant, "reply"⟩, ⟨Role.user, "hi"⟩,
      ⟨Role.assistant, "reply"⟩] : List Message).length ≠ 2 :=
  ⟨rfl, by decide⟩

/-- Helper for the completion-failure analysis: stated over
`chatAfterRewrite`, where the failing completion call lives. -/
theorem chatAfterRewrite_completion_failure (sv : Services) (env : Env)
    (u rq e : String) (h hAfter : List Message)
    (herr : chatAfterRewrite sv env u rq h =
      Except.error (PyError.completionError e, hAfter)) :
    ∃ aug, hAfter = h ++ [⟨Role.user, aug⟩] ∧
      (aug = u ∨ ∃ ctx : List String, ctx ≠ [] ∧
        aug = u ++ "\n\nRelevant Context:\n" ++ String.intercalate "\n" ctx) := by
  simp only [chatAfterRewrite] at herr
  repeat' split at herr
  all_goals
    first
      | exact Except.noConfusion herr
      | (injection herr with hp
         rw [Prod.mk.injEq] at hp
         first
           | exact PyError.noConfusion hp.1
           | (obtain ⟨he, hh⟩ := hp
              subst hh
              rename_i hempty
              first
                | exact ⟨u, rfl, Or.inl rfl⟩
                | exact ⟨_, rfl, Or.inr ⟨_, by simp_all, rfl⟩⟩))

/-- Claim C4, amended: when the main completion call fails, the error
escapes `chat` with the history holding the just-appended user turn whose
content was already overwritten in place at line 157; if a non-empty
context was retrieved that content is the context-augmented text rather
than the raw input, no assistant turn is recorded, and nothing in the
state marks the turn as in progress. -/
theorem chat_completion_failure_state (sv : Services) (env : Env) (u m e : String)
    (k : Nat) (h hAfter : List Message)
    (herr : chat sv env u m k h = Except.error (PyError.completionError e, hAfter)) :
    ∃ aug, hAfter = h ++ [⟨Role.user, aug⟩] ∧
      (aug = u ∨ ∃ ctx : List String, ctx ≠ [] ∧
        aug = u ++ "\n\nRelevant Context:\n" ++ String.intercalate "\n" ctx) := by
  simp only [chat] at herr
  by_cases hc : 1 < (h ++ [(⟨Role.user, u⟩ : Message)]).length
  · rw [if_pos hc] at herr
    rcases henv : env.ollama_model with _ | om
    · rw [henv] at herr
      injection herr with hp
      rw [Prod.mk.injEq] at hp
      exact PyError.noConfusion hp.1
    · rw [henv] at herr
      exact chatAfterRewrite_completion_failure sv env u _ e h hAfter herr
  · rw [if_neg hc] at herr
    exact chatAfterRewrite_completion_failure sv env u u e h hAfter herr

/-- Claim C4, witness for the amended theorem at a concrete failing
completion call over a one-chunk store. -/
theorem chat_completion_failure_state_witness :
    ∃ aug, [(⟨Role.user, "hi\n\nRelevant Context:\nThe sky is blue"⟩ : Message)] =
      ([] : List Message) ++ [⟨Role.user, aug⟩] ∧
      (aug = "hi" ∨ ∃ ctx : List String, ctx ≠ [] ∧
        aug = "hi" ++ "\n\nRelevant Context:\n" ++ String.intercalate "\n" ctx) :=
  chat_completion_failure_state svChatFail envOneChunk "hi" "gemma2:2b" "boom" 3 [] _ rfl

/-- Claim C4, counterexample to the claim as stated: a failing completion
call after retrieval of a non-empty context leaves the history with the
user turn content no longer equal to the raw input and with no assistant
turn recorded. -/
theorem chat_completion_failure_overwrite :
    chat svChatFail envOneChunk "hi" "gemma2:2b" 3 [] =
      Except.error (PyError.completionError "boom",
        [⟨Role.user, "hi\n\nRelevant Context:\nThe sky is blue"⟩]) ∧
    "hi\n\nRelevant Context:\nThe sky is blue" ≠ "hi" := ⟨rfl, by decide⟩

/-- Claim C5, amended: the temporary file written for the loader is removed
on the success path (line 70), but when the loader raises the exception
escapes before the `os.unlink` call and the temporary file is left on
disk. -/
theorem add_to_vector_store_tmp_lifecycle
    (load : LoaderKind → String → Except String (List Document))
    (split : List Document → List Document) (uuids : List String)
    (tmpName : String) (f : UploadedFile) (st0 : IngestState)
    (hfresh : tmpName ∉ st0.tmpFiles) :
    (∀ stOk, add_to_vector_store load split uuids tmpName (some f) st0 = Except.ok stOk →
        tmpName ∉ stOk.tmpFiles) ∧
    (∀ e stErr, add_to_vector_store load split uuids tmpName (some f) st0 =
        Except.error (e, stErr) → tmpName ∈ stErr.tmpFiles) := by
  constructor
  · intro stOk hok
    simp only [add_to_vector_store] at hok
    split at hok
    · exact Except.noConfusion hok
    · injection hok with hst
      subst hst
      show tmpName ∉ (st0.tmpFiles ++ [tmpName]).erase tmpName
      rw [List.erase_append_right _ hfresh, List.erase_cons_head]
      simp [hfresh]
  · intro e stErr herr
    simp only [add_to_vector_store] at herr
    split at herr
    · injection herr with hp
      rw [Prod.mk.injEq] at hp
      obtain ⟨he, hst⟩ := hp
      subst hst
      show tmpName ∈ st0.tmpFiles ++ [tmpName]
      simp
    · exact Except.noConfusion herr

/-- Claim C5, witness for the amended theorem at a concrete ingestion. -/
theorem add_to_vector_store_tmp_lifecycle_witness :
    ("/tmp/t0" ∉ (⟨[], []⟩ : IngestState).tmpFiles) ∧
    ((∀ stOk, add_to_vector_store loadOk splitId ["u0"] "/tmp/t0" (some fileTxt) ⟨[], []⟩ =
        Except.ok stOk → "/tmp/t0" ∉ stOk.tmpFiles) ∧
     (∀ e stErr, add_to_vector_store loadOk splitId ["u0"] "/tmp/t0" (some fileTxt) ⟨[], []⟩ =
        Except.error (e, stErr) → "/tmp/t0" ∈ stErr.tmpFiles)) :=
  ⟨by decide,
   add_to_vector_store_tmp_lifecycle loadOk splitId ["u0"] "/tmp/t0" fileTxt ⟨[], []⟩ (by decide)⟩

/-- Claim C5, counterexample to the claim as stated: a failing loader
leaves the transient on-disk copy behind. -/
theorem add_to_vector_store_leak :
    add_to_vector_store loadFail splitId [] "/tmp/t0" (some fileTxt) ⟨[], []⟩ =
      Except.error ("parse error", ⟨["/tmp/t0"], []⟩) ∧
    "/tmp/t0" ∈ (["/tmp/t0"] : List String) := ⟨rfl, by decide⟩

/-- Claim C6, amended: a failing embedding call inside the context lookup
propagates out of `chat` (there is no handler around `get_context`), so
the turn aborts with the error and no reply; retrieval failure does not
degrade to an empty context. -/
theorem chat_embedding_failure_aborts (sv : Services) (om : String)
    (ve : List (List ℚ)) (vc : List String) (u m msg : String) (k : Nat)
    (h : List Message) (hne : ¬ nelement ve = 0)
    (hemb : ∀ q, sv.embed q = Except.error msg) :
    chat sv ⟨some om, some ve, some vc⟩ u m k h =
      Except.error (PyError.embeddingError msg, h ++ [⟨Role.user, u⟩]) := by
  simp only [chat]
  by_cases hc : 1 < (h ++ [(⟨Role.user, u⟩ : Message)]).length
  · rw [if_pos hc]
    simp [chatAfterRewrite, get_context, if_neg hne, hemb]
  · rw [if_neg hc]
    simp [chatAfterRewrite, get_context, if_neg hne, hemb]

/-- Claim C6, witness for the amended theorem at a concrete failing
embedding service over a one-chunk store. -/
theorem chat_embedding_failure_aborts_witness :
    (¬ nelement [[(1 : ℚ)]] = 0) ∧
    chat svEmbedFail ⟨some "gemma2:2b", some [[(1 : ℚ)]], some ["The sky is blue"]⟩
        "hi" "gemma2:2b" 3 [] =
      Except.error (PyError.embeddingError "down", [⟨Role.user, "hi"⟩]) :=
  ⟨by decide,
   chat_embedding_failure_aborts svEmbedFail "gemma2:2b" [[1]] ["The sky is blue"]
     "hi" "gemma2:2b" "down" 3 [] (by decide) (fun _ => rfl)⟩

/-- Claim C6, counterexample to the claim as stated: with a failing
embedding service and a non-empty store the turn yields no reply at all —
the result is an error, not a completed turn with empty context. -/
theorem chat_embedding_failure_no_reply :
    chat svEmbedFail envOneChunk "hi" "gemma2:2b" 3 [] =
      Except.error (PyError.embeddingError "down", [⟨Role.user, "hi"⟩]) ∧
    (chat svEmbedFail envOneChunk "hi" "gemma2:2b" 3 []).isOk = false := ⟨rfl, rfl⟩

/-- Helper: the ranked index list is a rearrangement of all indices, so it
has one entry per score. -/
theorem length_rankedIndices (scores : List ℚ) :
    (rankedIndices scores).length = scores.length := by
  unfold rankedIndices
  rw [(List.perm_insertionSort (rankRel scores) (List.range scores.length)).length_eq,
    List.length_range]

/-- Helper: the ranked index list is sorted under the ranking relation. -/
theorem sorted_rankedIndices (scores : List ℚ) :
    List.Sorted (rankRel scores) (rankedIndices scores) :=
  List.sorted_insertionSort (rankRel scores) (List.range scores.length)

/-- Helper: reading a list at all positions in order reproduces the
list. -/
theorem map_getD_range {α β : Type _} (f : α → β) (d : α) :
    ∀ l : List α, (List.range l.length).map (fun i => f (l.getD i d)) = l.map f
  | [] => rfl
  | a :: t => by
    rw [List.length_cons, List.range_succ_eq_map, List.map_cons, List.map_map]
    have hcomp : ((fun i => f ((a :: t).getD i d)) ∘ Nat.succ) = fun i => f (t.getD i d) := by
      funext i
      simp [List.getD_cons_succ]
    rw [hcomp, map_getD_range f d t]
    simp [List.getD_cons_zero]

/-- Claim C7: querying a store with no stored embeddings returns the empty
list without error, and the result does not depend on the embedding
service — no embedding call is consulted for the query in that case. -/
theorem get_context_empty_store (embed : String → Except String (List ℚ))
    (cosSim : List ℚ → List ℚ → ℚ) (q : String) (ve : List (List ℚ))
    (vc : List String) (k : Nat) (hempty : nelement ve = 0) :
    get_context embed cosSim q ve vc k = Except.ok [] ∧
    ∀ embed2, get_context embed cosSim q ve vc k = get_context embed2 cosSim q ve vc k := by
  constructor
  · simp [get_context, hempty]
  · intro embed2
    simp [get_context, hempty]

/-- Claim C7, witness at a concrete empty store. -/
theorem get_context_empty_store_witness :
    nelement [] = 0 ∧
    (get_context svOk.embed firstCoord "What is X" [] [] 5 = Except.ok [] ∧
     ∀ embed2, get_context svOk.embed firstCoord "What is X" [] [] 5 =
       get_context embed2 firstCoord "What is X" [] [] 5) :=
  ⟨rfl, get_context_empty_store svOk.embed firstCoord "What is X" [] [] 5 rfl⟩

/-- Claim C8: on a non-empty store, with the embedding call succeeding,
the query clamps the requested k to the number of stored rows: the result
lists the stripped contents at exactly `min k n` indices, those indices
are ordered by non-increasing similarity score, and when k is at least n
the result is a permutation of all stored chunks. -/
theorem get_context_topk (embed : String → Except String (List ℚ))
    (cosSim : List ℚ → List ℚ → ℚ) (q : String) (ve : List (List ℚ))
    (vc : List String) (k : Nat) (v : List ℚ)
    (hne : ¬ nelement ve = 0) (hlen : vc.length = ve.length)
    (hemb : embed q = Except.ok v) :
    ∃ idxs : List Nat,
      get_context embed cosSim q ve vc k =
        Except.ok (idxs.map (fun i => pyStrip (vc.getD i ""))) ∧
      idxs.length = min k ve.length ∧
      idxs.Pairwise (fun i j =>
        scoreAt (ve.map (cosSim v)) j ≤ scoreAt (ve.map (cosSim v)) i) ∧
      (ve.length ≤ k →
        (idxs.map (fun i => pyStrip (vc.getD i ""))).Perm (vc.map pyStrip)) := by
  have hcs : (ve.map (cosSim v)).length = ve.length := by simp
  refine ⟨topkIndices (ve.map (cosSim v)) (min k (ve.map (cosSim v)).length),
    ?_, ?_, ?_, ?_⟩
  · simp only [get_context, if_neg hne, hemb]
  · unfold topkIndices
    rw [List.length_take, length_rankedIndices, hcs]
    omega
  · have hs := sorted_rankedIndices (ve.map (cosSim v))
    exact (List.Pairwise.sublist (List.take_sublist _ _) hs).imp
      (fun hij => by
        rcases hij with hlt | ⟨heq, hle⟩
        · exact le_of_lt hlt
        · exact le_of_eq heq.symm)
  · intro hk
    have hmin : min k (ve.map (cosSim v)).length = (ve.map (cosSim v)).length := by
      rw [hcs]
      omega
    rw [hmin]
    unfold topkIndices
    rw [List.take_of_length_le (le_of_eq (length_rankedIndices _))]
    have hperm := (List.perm_insertionSort (rankRel (ve.map (cosSim v)))
      (List.range (ve.map (cosSim v)).length)).map (fun i => pyStrip (vc.getD i ""))
    have heqmap : (List.range (ve.map (cosSim v)).length).map
        (fun i => pyStrip (vc.getD i "")) = vc.map pyStrip := by
      rw [hcs, ← hlen]
      exact map_getD_range pyStrip "" vc
    exact heqmap ▸ hperm

/-- Claim C8, witness over a two-chunk store with k = 5. -/
theorem get_context_topk_witness :
    (¬ nelement [[(1 : ℚ)], [0]] = 0) ∧
    (["a", "b"] : List String).length = [[(1 : ℚ)], [0]].length ∧
    embedConst "what color is the sky" = Except.ok [(1 : ℚ)] ∧
    ∃ idxs : List Nat,
      get_context embedConst firstCoord "what color is the sky"
          [[(1 : ℚ)], [0]] ["a", "b"] 5 =
        Except.ok (idxs.map (fun i => pyStrip ((["a", "b"] : List String).getD i ""))) ∧
      idxs.length = min 5 [[(1 : ℚ)], [0]].length ∧
      idxs.Pairwise (fun i j =>
        scoreAt ([[(1 : ℚ)], [0]].map (firstCoord [(1 : ℚ)])) j ≤
        scoreAt ([[(1 : ℚ)], [0]].map (firstCoord [(1 : ℚ)])) i) ∧
      ([[(1 : ℚ)], [0]].length ≤ 5 →
        (idxs.map (fun i => pyStrip ((["a", "b"] : List String).getD i ""))).Perm
          ((["a", "b"] : List String).map pyStrip)) :=
  ⟨by decide, rfl, rfl,
   get_context_topk embedConst firstCoord "what color is the sky"
     [[(1 : ℚ)], [0]] ["a", "b"] 5 [(1 : ℚ)] (by decide) rfl rfl⟩

/-- Helper: unfolding of `chatAfterRewrite` once the context result is
known. -/
theorem chatAfterRewrite_augments (sv : Services) (om : String)
    (ve : List (List ℚ)) (vc : List String) (u rq : String) (h : List Message)
    (ctx : List String)
    (hctx : get_context sv.embed sv.cosSim rq ve vc 3 = Except.ok ctx) :
    chatAfterRewrite sv ⟨some om, some ve, some vc⟩ u rq h =
      (let aug := if ctx.isEmpty then u
                  else u ++ "\n\nRelevant Context:\n" ++ String.intercalate "\n" ctx
       let hist2 := h ++ [⟨Role.user, aug⟩]
       match sv.chatService om (⟨Role.system, system_message⟩ :: hist2) with
       | Except.error e => Except.error (PyError.completionError e, hist2)
       | Except.ok reply => Except.ok (reply, hist2 ++ [⟨Role.assistant, reply⟩])) := by
  simp only [chatAfterRewrite]
  rw [hctx]

/-- Claim C9: with the three globals bound and retrieval returning `ctx`,
the just-appended user turn content becomes the raw input followed by the
separator and the joined chunks exactly when `ctx` is non-empty (and stays
the raw input otherwise), and the completion call receives the fixed
system instruction followed by the entire history with that turn so
augmented; the assistant reply is appended after it. -/
theorem chat_context_augmentation (sv : Services) (om : String)
    (ve : List (List ℚ)) (vc : List String) (u m : String) (k : Nat)
    (h : List Message) (ctx : List String)
    (hctx : get_context sv.embed sv.cosSim
        (if h.isEmpty then u
         else rewrite_query sv.rewriteService om u (h ++ [⟨Role.user, u⟩])) ve vc 3 =
      Except.ok ctx) :
    chat sv ⟨some om, some ve, some vc⟩ u m k h =
      (let aug := if ctx.isEmpty then u
                  else u ++ "\n\nRelevant Context:\n" ++ String.intercalate "\n" ctx
       let hist2 := h ++ [⟨Role.user, aug⟩]
       match sv.chatService om (⟨Role.system, system_message⟩ :: hist2) with
       | Except.error e => Except.error (PyError.completionError e, hist2)
       | Except.ok reply => Except.ok (reply, hist2 ++ [⟨Role.assistant, reply⟩])) := by
  cases h with
  | nil =>
      simp only [List.isEmpty_nil, if_pos] at hctx
      exact (chatAfterRewrite_augments sv om ve vc u u [] ctx hctx :)
  | cons a t =>
      simp only [List.isEmpty_cons, Bool.false_eq_true, if_neg, if_false] at hctx
      have hlen : 1 < ((a :: t) ++ [(⟨Role.user, u⟩ : Message)]).length := by
        simp
      simp only [chat]
      rw [if_pos hlen]
      exact chatAfterRewrite_augments sv om ve vc u _ (a :: t) ctx hctx

/-- Claim C9, witness at a concrete first turn over a one-chunk store. -/
theorem chat_context_augmentation_witness :
    (get_context svOk.embed svOk.cosSim
        (if ([] : List Message).isEmpty then "hi"
         else rewrite_query svOk.rewriteService "gemma2:2b" "hi"
           ([] ++ [⟨Role.user, "hi"⟩])) [[(1 : ℚ)]] ["The sky is blue"] 3 =
      Except.ok ["The sky is blue"]) ∧
    (chat svOk ⟨some "gemma2:2b", some [[(1 : ℚ)]], some ["The sky is blue"]⟩ "hi"
        "gemma2:2b" 3 [] =
      (let aug := if (["The sky is blue"] : List String).isEmpty then "hi"
                  else "hi" ++ "\n\nRelevant Context:\n"
                    ++ String.intercalate "\n" ["The sky is blue"]
       let hist2 := ([] : List Message) ++ [⟨Role.user, aug⟩]
       match svOk.chatService "gemma2:2b" (⟨Role.system, system_message⟩ :: hist2) with
       | Except.error e => Except.error (PyError.completionError e, hist2)
       | Except.ok reply => Except.ok (reply, hist2 ++ [⟨Role.assistant, reply⟩]))) :=
  ⟨rfl, chat_context_augmentation svOk "gemma2:2b" [[1]] ["The sky is blue"] "hi"
    "gemma2:2b" 3 [] ["The sky is blue"] rfl⟩

/-- Claim C10: retrieval is deterministic — the result of `get_context` is
a function of the stored contents and the embedding value assigned to the
query text, so two runs whose embedding services agree on the query return
the same ranked chunks in the same order. -/
theorem get_context_deterministic (embed1 embed2 : String → Except String (List ℚ))
    (cosSim : List ℚ → List ℚ → ℚ) (q : String) (ve : List (List ℚ))
    (vc : List String) (k : Nat) (hagree : embed1 q = embed2 q) :
    get_context embed1 cosSim q ve vc k = get_context embed2 cosSim q ve vc k := by
  simp only [get_context, hagree]

/-- Claim C10, witness with two embedding services that agree on the
query but not elsewhere. -/
theorem get_context_deterministic_witness :
    embedConst "q" = embedIfQ "q" ∧
    get_context embedConst firstCoord "q" [[(1 : ℚ)], [0]] ["a", "b"] 2 =
      get_context embedIfQ firstCoord "q" [[(1 : ℚ)], [0]] ["a", "b"] 2 :=
  ⟨rfl, get_context_deterministic embedConst embedIfQ firstCoord "q"
    [[(1 : ℚ)], [0]] ["a", "b"] 2 rfl⟩

end RagDemo
